import Mathlib

/-!
Shallow embedding of `pkg/diagnostics/workflow_monitoring.go` (dapr):
the workflow-metrics recording subsystem.

The Go file defines the `workflowMetrics` struct holding four OpenCensus
measures plus `appID`, `enabled`, `namespace`; `newWorkflowMetrics` builds
the struct with the measures populated and the remaining fields at their Go
zero values; `Init` stores appID/namespace, sets `enabled`, and registers
one view per measure; `WorkflowOperationEvent` and `ExecutionEvent` record
tagged observations when enabled; `IsEnabled` guards against a nil receiver.

The OpenCensus stats/view backend is external to the repository; its
view-registration contract is modelled from the spec (a view registration
fails exactly when a view with the same name already exists with a
different tag-key set or aggregation) and recording is modelled as
appending observation records to a backend trace list. Elapsed times are
Go float64 values on which the code only tests `> 0` and passes through;
they are embedded as rationals.

A second, older variant of the component exists in
`pkg/diagnostics/workflow_metrics.go` with different measure names and no
recording methods; the claims under verification all target the
`workflow_monitoring.go` variant, which is the one embedded here.
-/

namespace Diag

/-- Tag keys used by the workflow views. `executionTypeKey` is declared in
`workflow_monitoring.go` (`tag.MustNewKey("execution_type")`); the other
five are package-level keys of the diagnostics package. Go `tag.Key` values
are opaque interned keys, embedded as an enumeration. -/
inductive TagKey where
  | appIDKey
  | componentKey
  | namespaceKey
  | operationKey
  | statusKey
  | executionTypeKey
deriving DecidableEq, Repr

/-- View aggregation kind: `view.Count()` for counters, and the package's
fixed `defaultLatencyDistribution` histogram for latency measures. -/
inductive Aggregation where
  | count
  | defaultLatencyDistribution
deriving DecidableEq, Repr

/-- Embeds `stats.Int64Measure` creation data (`stats.Int64(name, description, unit)`). -/
structure Int64Measure where
  name : String
  description : String
  unit : String
deriving DecidableEq, Repr

/-- Embeds `stats.Float64Measure` creation data (`stats.Float64(name, description, unit)`). -/
structure Float64Measure where
  name : String
  description : String
  unit : String
deriving DecidableEq, Repr

/-- `stats.UnitDimensionless`. -/
def UnitDimensionless : String := "1"

/-- `stats.UnitMilliseconds`. -/
def UnitMilliseconds : String := "ms"

/-- The `workflowMetrics` struct of `workflow_monitoring.go`. The Go field
`namespace` is a Lean keyword and is embedded as `nspace`. -/
structure workflowMetrics where
  workflowOperationCount : Int64Measure
  workflowOperationLatency : Float64Measure
  workflowExecutionCount : Int64Measure
  workflowExecutionLatency : Float64Measure
  appID : String
  enabled : Bool
  nspace : String
deriving DecidableEq, Repr

/-- `newWorkflowMetrics()`: builds the struct literal with the four measures;
`appID`, `enabled`, `namespace` keep their Go zero values (`""`, `false`, `""`). -/
def newWorkflowMetrics : workflowMetrics where
  workflowOperationCount :=
    ⟨"runtime/workflow/operation/count",
     "The number of successful/failed workflow operation requests.",
     UnitDimensionless⟩
  workflowOperationLatency :=
    ⟨"runtime/workflow/operation/latency",
     "The latencies of responses for workflow operation requests.",
     UnitMilliseconds⟩
  workflowExecutionCount :=
    ⟨"runtime/workflow/execution/count",
     "The number of successful/failed/recoverable workflow/activity executions.",
     UnitDimensionless⟩
  workflowExecutionLatency :=
    ⟨"runtime/workflow/execution/latency",
     "The total time taken to run a workflow/activity to completion.",
     UnitMilliseconds⟩
  appID := ""
  enabled := false
  nspace := ""

/-- `IsEnabled`: `return w != nil && w.enabled`. A possibly-nil Go pointer
receiver `*workflowMetrics` is embedded as `Option workflowMetrics`. -/
def IsEnabled : Option workflowMetrics → Bool
  | none => false
  | some w => w.enabled

/-- A registered view: the name (taken from the measure's name by
`diagUtils.NewMeasureView`), the declared tag-key set and the aggregation.
Modelled from the spec: `NewMeasureView` itself lives outside the given
sources; per the spec a View "binds one Measure to an ordered set of Tag
keys and an aggregation". -/
structure View where
  name : String
  tagKeys : List TagKey
  agg : Aggregation
deriving DecidableEq, Repr

/-- Modelled from the spec: the external backend's registration of a single
view. It fails exactly when "a View with the same name already exists with
a different tag-key set or aggregation"; registering a view identical to an
existing one succeeds without change; otherwise the view is added. -/
def tryRegisterView (reg : List View) (v : View) : Except String (List View) :=
  match reg.find? (fun x => x.name == v.name) with
  | some x => if x = v then .ok reg else .error ("cannot register view " ++ v.name)
  | none => .ok (reg ++ [v])

/-- Modelled from the spec: `view.Register(views...) -> error` registers the
views in order and stops at the first failure, leaving earlier
registrations in place; it returns the registry after the attempt together
with the error, if any. -/
def registerViews (reg : List View) : List View → List View × Option String
  | [] => (reg, none)
  | v :: vs =>
    match tryRegisterView reg v with
    | .ok reg' => registerViews reg' vs
    | .error e => (reg, some e)

/-- The four views `Init` registers, one per measure, with the tag-key sets
and aggregations written in `workflow_monitoring.go` lines 91-95. -/
def initViews (w : workflowMetrics) : List View :=
  [⟨w.workflowOperationCount.name,
    [.appIDKey, .componentKey, .namespaceKey, .operationKey, .statusKey], .count⟩,
   ⟨w.workflowOperationLatency.name,
    [.appIDKey, .componentKey, .namespaceKey, .operationKey, .statusKey],
    .defaultLatencyDistribution⟩,
   ⟨w.workflowExecutionCount.name,
    [.appIDKey, .componentKey, .namespaceKey, .executionTypeKey, .statusKey], .count⟩,
   ⟨w.workflowExecutionLatency.name,
    [.appIDKey, .componentKey, .namespaceKey, .executionTypeKey, .statusKey],
    .defaultLatencyDistribution⟩]

/-- `Init(appID, namespace string) error`: first assigns `w.appID = appID`,
`w.enabled = true`, `w.namespace = namespace`, then returns the result of
`view.Register` on the four views. The registry of the external backend is
threaded explicitly; the result is the updated struct, the updated registry
and the returned error. -/
def Init (w : workflowMetrics) (appID ns : String) (reg : List View) :
    workflowMetrics × List View × Option String :=
  let w' : workflowMetrics := { w with appID := appID, enabled := true, nspace := ns }
  let r := registerViews reg (initViews w')
  (w', r.1, r.2)

/-- One observation pushed to the external aggregation backend:
`stats.RecordWithTags(ctx, diagUtils.WithTags(measureName, tags...), m.M(value))`. -/
structure Record where
  measureName : String
  tags : List (TagKey × String)
  value : ℚ
deriving DecidableEq, Repr

/-- The tag mutator list built by `WorkflowOperationEvent`:
`appIDKey, w.appID, componentKey, component, namespaceKey, w.namespace,
operationKey, operation, statusKey, status`. -/
def opTags (w : workflowMetrics) (operation component status : String) :
    List (TagKey × String) :=
  [(.appIDKey, w.appID), (.componentKey, component), (.namespaceKey, w.nspace),
   (.operationKey, operation), (.statusKey, status)]

/-- The tag mutator list built by `ExecutionEvent`:
`appIDKey, w.appID, componentKey, component, namespaceKey, w.namespace,
executionTypeKey, executionType, statusKey, status`. -/
def execTags (w : workflowMetrics) (component executionType status : String) :
    List (TagKey × String) :=
  [(.appIDKey, w.appID), (.componentKey, component), (.namespaceKey, w.nspace),
   (.executionTypeKey, executionType), (.statusKey, status)]

/-- `WorkflowOperationEvent(ctx, operation, component, status, elapsed)`:
returns early when `!w.IsEnabled()`; otherwise records a count observation
of 1 on the operation counter and, when `elapsed > 0`, one latency
observation of `elapsed` on the operation latency distribution. The method
performs no assignment to the receiver; the result pairs the (unchanged)
receiver with the backend trace after the call. -/
def WorkflowOperationEvent (w? : Option workflowMetrics)
    (operation component status : String) (elapsed : ℚ) (recs : List Record) :
    Option workflowMetrics × List Record :=
  match w? with
  | none => (none, recs)
  | some w =>
    if !w.enabled then (some w, recs)
    else
      let recs₁ := recs ++
        [⟨w.workflowOperationCount.name, opTags w operation component status, 1⟩]
      let recs₂ :=
        if elapsed > 0 then
          recs₁ ++
            [⟨w.workflowOperationLatency.name, opTags w operation component status, elapsed⟩]
        else recs₁
      (some w, recs₂)

/-- `ExecutionEvent(ctx, component, executionType, status, elapsed)`:
returns early when `!w.IsEnabled()`; otherwise records a count observation
of 1 on the execution counter and, when `elapsed > 0`, one latency
observation of `elapsed` on the execution latency distribution. As in the
source, the receiver is not mutated. -/
def ExecutionEvent (w? : Option workflowMetrics)
    (component executionType status : String) (elapsed : ℚ) (recs : List Record) :
    Option workflowMetrics × List Record :=
  match w? with
  | none => (none, recs)
  | some w =>
    if !w.enabled then (some w, recs)
    else
      let recs₁ := recs ++
        [⟨w.workflowExecutionCount.name, execTags w component executionType status, 1⟩]
      let recs₂ :=
        if elapsed > 0 then
          recs₁ ++
            [⟨w.workflowExecutionLatency.name, execTags w component executionType status, elapsed⟩]
        else recs₁
      (some w, recs₂)

/-- A call into the subsystem, for reasoning about reachable states. -/
inductive Call where
  | init (appID ns : String)
  | workflowOperationEvent (operation component status : String) (elapsed : ℚ)
  | executionEvent (component executionType status : String) (elapsed : ℚ)
deriving DecidableEq, Repr

/-- The full system state: the metrics struct, the external view registry
and the backend observation trace. -/
structure SysState where
  metrics : workflowMetrics
  registry : List View
  records : List Record
deriving DecidableEq, Repr

/-- One call applied to the system state. -/
def step (s : SysState) : Call → SysState
  | .init a n =>
    let r := Init s.metrics a n s.registry
    ⟨r.1, r.2.1, s.records⟩
  | .workflowOperationEvent o c st e =>
    ⟨s.metrics, s.registry, (WorkflowOperationEvent (some s.metrics) o c st e s.records).2⟩
  | .executionEvent c et st e =>
    ⟨s.metrics, s.registry, (ExecutionEvent (some s.metrics) c et st e s.records).2⟩

/-- All states reachable from a freshly constructed `workflowMetrics`
(with an arbitrary pre-existing backend registry) by a sequence of calls. -/
def run (reg0 : List View) (calls : List Call) : SysState :=
  calls.foldl step ⟨newWorkflowMetrics, reg0, []⟩

/-- A registry containing a view named like the operation counter but with a
different tag-key set: registering the workflow views against it fails. -/
def conflictingRegistry : List View :=
  [⟨"runtime/workflow/operation/count", [.appIDKey], .count⟩]

/-- The metrics struct after a successful `Init("a1", "ns1")` on a freshly
constructed instance with an empty backend registry. -/
def wEnabled : workflowMetrics := (Init newWorkflowMetrics "a1" "ns1" []).1

/-! ## Theorems -/

/-- C10: `IsEnabled` called on a nil `*workflowMetrics` receiver returns
`false` (the `w != nil` conjunct short-circuits) and, being a total
function of the embedded state, cannot panic. -/
theorem IsEnabled_nil_receiver : IsEnabled (none : Option workflowMetrics) = false := rfl

/-- C2: whenever `IsEnabled()` is false — including on a nil receiver —
`WorkflowOperationEvent` and `ExecutionEvent` return with the receiver and
the backend trace unchanged: no observation is recorded, no state is
mutated, and as total functions they raise no error. -/
theorem recorder_disabled_noop (w? : Option workflowMetrics)
    (operation component executionType status status' : String) (e e' : ℚ)
    (recs recs' : List Record) (h : IsEnabled w? = false) :
    WorkflowOperationEvent w? operation component status e recs = (w?, recs) ∧
    ExecutionEvent w? component executionType status' e' recs' = (w?, recs') := by
  cases w? with
  | none => exact ⟨rfl, rfl⟩
  | some w =>
    simp only [IsEnabled] at h
    exact ⟨by simp [WorkflowOperationEvent, h], by simp [ExecutionEvent, h]⟩

/-- Witness for C2 at the freshly constructed (disabled) metrics struct. -/
theorem recorder_disabled_noop_witness :
    IsEnabled (some newWorkflowMetrics) = false ∧
    (WorkflowOperationEvent (some newWorkflowMetrics) "create_workflow" "dapr" "success"
        (3 : ℚ) [] = (some newWorkflowMetrics, []) ∧
      ExecutionEvent (some newWorkflowMetrics) "dapr" "activity" "failed"
        (2 : ℚ) [] = (some newWorkflowMetrics, [])) :=
  ⟨by decide,
   recorder_disabled_noop (some newWorkflowMetrics) "create_workflow" "dapr" "activity"
     "success" "failed" 3 2 [] [] (by decide)⟩

/-- C3: in the enabled state, `WorkflowOperationEvent` appends to the
backend trace exactly one increment of 1 on the operation counter tagged
`{appID, component, namespace, operation, status}`, followed by exactly one
observation of `elapsed` on the operation-latency distribution with the
identical tags if and only if `elapsed > 0`; the receiver is unchanged. -/
theorem WorkflowOperationEvent_enabled_records (w : workflowMetrics)
    (operation component status : String) (elapsed : ℚ) (recs : List Record)
    (h : IsEnabled (some w) = true) :
    WorkflowOperationEvent (some w) operation component status elapsed recs =
      (some w,
       recs ++
         [⟨w.workflowOperationCount.name,
           [(.appIDKey, w.appID), (.componentKey, component), (.namespaceKey, w.nspace),
            (.operationKey, operation), (.statusKey, status)], 1⟩] ++
         (if elapsed > 0 then
           [⟨w.workflowOperationLatency.name,
             [(.appIDKey, w.appID), (.componentKey, component), (.namespaceKey, w.nspace),
              (.operationKey, operation), (.statusKey, status)], elapsed⟩]
          else [])) := by
  simp only [IsEnabled] at h
  by_cases he : elapsed > 0 <;>
    simp [WorkflowOperationEvent, opTags, h, he, List.append_assoc]

/-- Witness for C3: the spec's example call after a successful Init, with
`elapsed = 12.5`, yields the count increment and one latency observation. -/
theorem WorkflowOperationEvent_enabled_records_witness :
    IsEnabled (some wEnabled) = true ∧
    WorkflowOperationEvent (some wEnabled) "create_workflow" "dapr" "success"
        (25 / 2 : ℚ) [] =
      (some wEnabled,
       [] ++
         [⟨wEnabled.workflowOperationCount.name,
           [(.appIDKey, wEnabled.appID), (.componentKey, "dapr"),
            (.namespaceKey, wEnabled.nspace),
            (.operationKey, "create_workflow"), (.statusKey, "success")], 1⟩] ++
         (if (25 / 2 : ℚ) > 0 then
           [⟨wEnabled.workflowOperationLatency.name,
             [(.appIDKey, wEnabled.appID), (.componentKey, "dapr"),
              (.namespaceKey, wEnabled.nspace),
              (.operationKey, "create_workflow"), (.statusKey, "success")], (25 / 2 : ℚ)⟩]
          else [])) :=
  ⟨by decide,
   WorkflowOperationEvent_enabled_records wEnabled "create_workflow" "dapr" "success"
     (25 / 2) [] (by decide)⟩

/-- C4: in the enabled state, `ExecutionEvent` appends exactly one
increment of 1 on the execution counter tagged
`{appID, component, namespace, executionType, status}`, followed by exactly
one observation of `elapsed` on the execution-latency distribution with the
identical tags if and only if `elapsed > 0`; in particular `elapsed = 0`
yields the count increment and no latency record. -/
theorem ExecutionEvent_enabled_records (w : workflowMetrics)
    (component executionType status : String) (elapsed : ℚ) (recs : List Record)
    (h : IsEnabled (some w) = true) :
    ExecutionEvent (some w) component executionType status elapsed recs =
      (some w,
       recs ++
         [⟨w.workflowExecutionCount.name,
           [(.appIDKey, w.appID), (.componentKey, component), (.namespaceKey, w.nspace),
            (.executionTypeKey, executionType), (.statusKey, status)], 1⟩] ++
         (if elapsed > 0 then
           [⟨w.workflowExecutionLatency.name,
             [(.appIDKey, w.appID), (.componentKey, component), (.namespaceKey, w.nspace),
              (.executionTypeKey, executionType), (.statusKey, status)], elapsed⟩]
          else [])) := by
  simp only [IsEnabled] at h
  by_cases he : elapsed > 0 <;>
    simp [ExecutionEvent, execTags, h, he, List.append_assoc]

/-- Witness for C4: the spec's example `ExecutionEvent(ctx, "dapr",
"activity", "failed", 0)` yields one count and no latency record. -/
theorem ExecutionEvent_enabled_records_witness :
    IsEnabled (some wEnabled) = true ∧
    ExecutionEvent (some wEnabled) "dapr" "activity" "failed" (0 : ℚ) [] =
      (some wEnabled,
       [] ++
         [⟨wEnabled.workflowExecutionCount.name,
           [(.appIDKey, wEnabled.appID), (.componentKey, "dapr"),
            (.namespaceKey, wEnabled.nspace),
            (.executionTypeKey, "activity"), (.statusKey, "failed")], 1⟩] ++
         (if (0 : ℚ) > 0 then
           [⟨wEnabled.workflowExecutionLatency.name,
             [(.appIDKey, wEnabled.appID), (.componentKey, "dapr"),
              (.namespaceKey, wEnabled.nspace),
              (.executionTypeKey, "activity"), (.statusKey, "failed")], (0 : ℚ)⟩]
          else [])) :=
  ⟨by decide,
   ExecutionEvent_enabled_records wEnabled "dapr" "activity" "failed" 0 [] (by decide)⟩

/-- C6: `IsEnabled()` is false on the freshly constructed struct, and true
immediately after an `Init` whose view registration returned no error. -/
theorem IsEnabled_before_after_Init (a n : String) (reg : List View)
    (_h : (Init newWorkflowMetrics a n reg).2.2 = none) :
    IsEnabled (some newWorkflowMetrics) = false ∧
    IsEnabled (some (Init newWorkflowMetrics a n reg).1) = true :=
  ⟨rfl, rfl⟩

/-- Witness for C6: `Init("a1", "ns1")` against an empty backend registry
succeeds. -/
theorem IsEnabled_before_after_Init_witness :
    (Init newWorkflowMetrics "a1" "ns1" []).2.2 = none ∧
    (IsEnabled (some newWorkflowMetrics) = false ∧
      IsEnabled (some (Init newWorkflowMetrics "a1" "ns1" []).1) = true) :=
  ⟨by decide, IsEnabled_before_after_Init "a1" "ns1" [] (by decide)⟩

/-- C1 counterexample: against a registry already holding a view named
`runtime/workflow/operation/count` with a different tag-key set, `Init`
returns a registration error, yet the resulting struct has `enabled = true`
and a subsequent `WorkflowOperationEvent` call does record an observation —
refuting "enabled is set only if every view registration succeeds" and
"subsequent Recorder calls remain no-ops". -/
theorem Init_failure_leaves_enabled_counterexample :
    ((Init newWorkflowMetrics "a1" "ns1" conflictingRegistry).2.2).isSome = true ∧
    (Init newWorkflowMetrics "a1" "ns1" conflictingRegistry).1.enabled = true ∧
    (WorkflowOperationEvent
        (some (Init newWorkflowMetrics "a1" "ns1" conflictingRegistry).1)
        "create_workflow" "dapr" "success" (1 : ℚ) []).2 ≠ [] := by
  decide

/-- C1 amended: `Init` assigns `appID`, `enabled = true` and `namespace`
unconditionally, before registering the views, and returns exactly the
error produced by view registration; on registration failure `enabled`
remains true, so subsequent Recorder calls are not no-ops. -/
theorem Init_enables_unconditionally (w : workflowMetrics) (a n : String)
    (reg : List View) :
    (Init w a n reg).1.enabled = true ∧
    (Init w a n reg).1.appID = a ∧
    (Init w a n reg).1.nspace = n ∧
    (Init w a n reg).2.2 = (registerViews reg (initViews (Init w a n reg).1)).2 :=
  ⟨rfl, rfl, rfl, rfl⟩

/-- The receiver component of `WorkflowOperationEvent` is always returned
unchanged: the method assigns no field. -/
theorem WorkflowOperationEvent_fst (w? : Option workflowMetrics)
    (operation component status : String) (e : ℚ) (recs : List Record) :
    (WorkflowOperationEvent w? operation component status e recs).1 = w? := by
  cases w? with
  | none => rfl
  | some w => by_cases h : w.enabled <;> simp [WorkflowOperationEvent, h]

/-- The receiver component of `ExecutionEvent` is always returned
unchanged: the method assigns no field. -/
theorem ExecutionEvent_fst (w? : Option workflowMetrics)
    (component executionType status : String) (e : ℚ) (recs : List Record) :
    (ExecutionEvent w? component executionType status e recs).1 = w? := by
  cases w? with
  | none => rfl
  | some w => by_cases h : w.enabled <;> simp [ExecutionEvent, h]

/-- `WorkflowOperationEvent` only ever appends to the backend trace. -/
theorem WorkflowOperationEvent_snd_append (w? : Option workflowMetrics)
    (operation component status : String) (e : ℚ) (recs : List Record) :
    ∃ t, (WorkflowOperationEvent w? operation component status e recs).2 = recs ++ t := by
  cases w? with
  | none => exact ⟨[], by simp [WorkflowOperationEvent]⟩
  | some w =>
    by_cases h : w.enabled
    · by_cases he : e > 0
      · exact ⟨[⟨w.workflowOperationCount.name, opTags w operation component status, 1⟩,
           ⟨w.workflowOperationLatency.name, opTags w operation component status, e⟩],
          by simp [WorkflowOperationEvent, h, he, List.append_assoc]⟩
      · exact ⟨[⟨w.workflowOperationCount.name, opTags w operation component status, 1⟩],
          by simp [WorkflowOperationEvent, h, he]⟩
    · exact ⟨[], by simp [WorkflowOperationEvent, h]⟩

/-- `ExecutionEvent` only ever appends to the backend trace. -/
theorem ExecutionEvent_snd_append (w? : Option workflowMetrics)
    (component executionType status : String) (e : ℚ) (recs : List Record) :
    ∃ t, (ExecutionEvent w? component executionType status e recs).2 = recs ++ t := by
  cases w? with
  | none => exact ⟨[], by simp [ExecutionEvent]⟩
  | some w =>
    by_cases h : w.enabled
    · by_cases he : e > 0
      · exact ⟨[⟨w.workflowExecutionCount.name, execTags w component executionType status, 1⟩,
           ⟨w.workflowExecutionLatency.name, execTags w component executionType status, e⟩],
          by simp [ExecutionEvent, h, he, List.append_assoc]⟩
      · exact ⟨[⟨w.workflowExecutionCount.name, execTags w component executionType status, 1⟩],
          by simp [ExecutionEvent, h, he]⟩
    · exact ⟨[], by simp [ExecutionEvent, h]⟩

/-- C7: for every call to `WorkflowOperationEvent` or `ExecutionEvent`, in
any state (nil, disabled or enabled), the receiver — hence every field of
the `workflowMetrics` state, including the four measure handles — is
returned unchanged, and the only effect is appending observations to the
external backend trace. Neither method touches the view registry: the
registry is not even an input of the embedded record path. -/
theorem recorder_frame (w? : Option workflowMetrics)
    (operation component executionType status status' : String) (e e' : ℚ)
    (recs recs' : List Record) :
    (WorkflowOperationEvent w? operation component status e recs).1 = w? ∧
    (∃ t, (WorkflowOperationEvent w? operation component status e recs).2 = recs ++ t) ∧
    (ExecutionEvent w? component executionType status' e' recs').1 = w? ∧
    (∃ t, (ExecutionEvent w? component executionType status' e' recs').2 = recs' ++ t) :=
  ⟨WorkflowOperationEvent_fst w? operation component status e recs,
   WorkflowOperationEvent_snd_append w? operation component status e recs,
   ExecutionEvent_fst w? component executionType status' e' recs',
   ExecutionEvent_snd_append w? component executionType status' e' recs'⟩

/-- Characterization of the metrics struct along any call sequence: either
no `Init` occurs and the struct is untouched, or some `Init(a, n)` occurs
(in particular the last one) and the struct is the start struct with
`appID`, `enabled`, `namespace` overwritten by `a`, `true`, `n`. -/
theorem foldl_step_metrics (calls : List Call) (s : SysState) :
    ((calls.foldl step s).metrics = s.metrics ∧ ∀ a n, Call.init a n ∉ calls) ∨
    (∃ a n, Call.init a n ∈ calls ∧
      (calls.foldl step s).metrics =
        { s.metrics with appID := a, enabled := true, nspace := n }) := by
  induction calls generalizing s with
  | nil => exact Or.inl ⟨rfl, by simp⟩
  | cons c rest ih =>
    rw [List.foldl_cons]
    cases c with
    | init a n =>
      rcases ih (step s (.init a n)) with ⟨heq, _⟩ | ⟨a', n', hmem, heq⟩
      · exact Or.inr ⟨a, n, List.mem_cons_self _ _, by rw [heq]; rfl⟩
      · exact Or.inr ⟨a', n', List.mem_cons_of_mem _ hmem, by rw [heq]; rfl⟩
    | workflowOperationEvent o c' st e =>
      rcases ih (step s (.workflowOperationEvent o c' st e)) with ⟨heq, hni⟩ | ⟨a', n', hmem, heq⟩
      · refine Or.inl ⟨heq, fun a n hmem => ?_⟩
        rcases List.mem_cons.mp hmem with hc | hc
        · exact Call.noConfusion hc
        · exact hni a n hc
      · exact Or.inr ⟨a', n', List.mem_cons_of_mem _ hmem, heq⟩
    | executionEvent c' et st e =>
      rcases ih (step s (.executionEvent c' et st e)) with ⟨heq, hni⟩ | ⟨a', n', hmem, heq⟩
      · refine Or.inl ⟨heq, fun a n hmem => ?_⟩
        rcases List.mem_cons.mp hmem with hc | hc
        · exact Call.noConfusion hc
        · exact hni a n hc
      · exact Or.inr ⟨a', n', List.mem_cons_of_mem _ hmem, heq⟩

/-- C5: in every state reachable from the freshly constructed struct by a
sequence of `Init` and Recorder calls, `enabled = true` implies that
`appID` and `namespace` hold the values supplied by a prior `Init` call,
and `enabled` stays true after every further call sequence: the Enabled
state is terminal, no operation sets the flag back to false. -/
theorem enabled_terminal_and_populated (reg0 : List View) (calls extra : List Call)
    (h : (run reg0 calls).metrics.enabled = true) :
    (∃ a n, Call.init a n ∈ calls ∧
      (run reg0 calls).metrics.appID = a ∧ (run reg0 calls).metrics.nspace = n) ∧
    (run reg0 (calls ++ extra)).metrics.enabled = true := by
  constructor
  · rcases foldl_step_metrics calls ⟨newWorkflowMetrics, reg0, []⟩ with ⟨heq, _⟩ | ⟨a, n, hmem, heq⟩
    · rw [run] at h
      rw [heq] at h
      exact Bool.noConfusion h
    · exact ⟨a, n, hmem, by rw [run, heq], by rw [run, heq]⟩
  · have hsplit : run reg0 (calls ++ extra) = extra.foldl step (run reg0 calls) := by
      rw [run, run, List.foldl_append]
    rw [hsplit]
    rcases foldl_step_metrics extra (run reg0 calls) with ⟨heq, _⟩ | ⟨a, n, _, heq⟩
    · rw [heq]; exact h
    · rw [heq]

/-- Witness for C5: after the single call `Init("a1", "ns1")` the system is
enabled, the fields hold the Init arguments, and remains enabled. -/
theorem enabled_terminal_and_populated_witness :
    (run [] [Call.init "a1" "ns1"]).metrics.enabled = true ∧
    ((∃ a n, Call.init a n ∈ [Call.init "a1" "ns1"] ∧
        (run [] [Call.init "a1" "ns1"]).metrics.appID = a ∧
        (run [] [Call.init "a1" "ns1"]).metrics.nspace = n) ∧
      (run [] ([Call.init "a1" "ns1"] ++ [])).metrics.enabled = true) :=
  ⟨by decide, enabled_terminal_and_populated [] [Call.init "a1" "ns1"] [] (by decide)⟩

/-- A successful single-view registration only ever appends to the registry. -/
theorem tryRegisterView_extend (reg : List View) (v : View) (reg1 : List View)
    (h : tryRegisterView reg v = .ok reg1) : ∃ s, reg1 = reg ++ s := by
  unfold tryRegisterView at h
  cases hf : reg.find? (fun x => x.name == v.name) with
  | some x =>
    rw [hf] at h
    dsimp only at h
    by_cases hxv : x = v
    · rw [if_pos hxv] at h
      injection h with h
      exact ⟨[], by rw [← h, List.append_nil]⟩
    · simp [hxv] at h
  | none =>
    rw [hf] at h
    dsimp only at h
    injection h with h
    exact ⟨[v], h.symm⟩

/-- After a successful single-view registration, looking the view's name up
in the registry finds exactly that view. -/
theorem tryRegisterView_find (reg : List View) (v : View) (reg1 : List View)
    (h : tryRegisterView reg v = .ok reg1) :
    reg1.find? (fun x => x.name == v.name) = some v := by
  unfold tryRegisterView at h
  cases hf : reg.find? (fun x => x.name == v.name) with
  | some x =>
    rw [hf] at h
    dsimp only at h
    by_cases hxv : x = v
    · rw [if_pos hxv] at h
      injection h with h
      rw [← h, hf, hxv]
    · simp [hxv] at h
  | none =>
    rw [hf] at h
    dsimp only at h
    injection h with h
    rw [← h, List.find?_append, hf]
    simp

/-- Registering a view list only ever appends to the registry, whether or
not the registration succeeds. -/
theorem registerViews_extend (vs : List View) (reg reg' : List View)
    (e : Option String) (h : registerViews reg vs = (reg', e)) :
    ∃ s, reg' = reg ++ s := by
  induction vs generalizing reg with
  | nil =>
    simp only [registerViews, Prod.mk.injEq] at h
    exact ⟨[], by rw [← h.1, List.append_nil]⟩
  | cons v vs ih =>
    rw [registerViews] at h
    cases ht : tryRegisterView reg v with
    | ok reg1 =>
      rw [ht] at h
      obtain ⟨s1, hs1⟩ := tryRegisterView_extend reg v reg1 ht
      obtain ⟨s2, hs2⟩ := ih reg1 h
      exact ⟨s1 ++ s2, by rw [hs2, hs1, List.append_assoc]⟩
    | error err =>
      rw [ht] at h
      simp only [Prod.mk.injEq] at h
      exact ⟨[], by rw [← h.1, List.append_nil]⟩

/-- After registering a view list successfully, looking any of the list's
views up by name in the resulting registry finds exactly that view. -/
theorem registerViews_ok_find (vs : List View) (reg reg' : List View)
    (h : registerViews reg vs = (reg', none)) :
    ∀ v ∈ vs, reg'.find? (fun x => x.name == v.name) = some v := by
  induction vs generalizing reg with
  | nil => intro v hv; exact absurd hv (List.not_mem_nil v)
  | cons u vs ih =>
    rw [registerViews] at h
    cases ht : tryRegisterView reg u with
    | ok reg1 =>
      rw [ht] at h
      intro v hv
      rcases List.mem_cons.mp hv with hvu | hvs
      · subst hvu
        obtain ⟨s, hs⟩ := registerViews_extend vs reg1 reg' none h
        rw [hs, List.find?_append, tryRegisterView_find reg v reg1 ht]
        rfl
      · exact ih reg1 h v hvs
    | error err =>
      rw [ht] at h
      simp at h

/-- Re-registering a view list against a registry in which every view of
the list is already found identically succeeds and leaves the registry
unchanged. -/
theorem registerViews_of_found (vs : List View) (reg : List View)
    (h : ∀ v ∈ vs, reg.find? (fun x => x.name == v.name) = some v) :
    registerViews reg vs = (reg, none) := by
  induction vs with
  | nil => rfl
  | cons v vs ih =>
    have hv := h v (List.mem_cons_self v vs)
    have ht : tryRegisterView reg v = .ok reg := by
      simp [tryRegisterView, hv]
    rw [registerViews, ht]
    exact ih (fun u hu => h u (List.mem_cons_of_mem v hu))

/-- C8: calling `Init` a second time with the same `appID` and `namespace`
as a prior successful `Init` takes the idempotent-success branch the claim
allows: it succeeds (no registration error) and leaves both the metrics
struct and the view registry exactly as the first `Init` left them. Being
a total function of the embedded state, the second call cannot panic. -/
theorem Init_reinit_idempotent (w : workflowMetrics) (a n : String)
    (reg : List View) (h : (Init w a n reg).2.2 = none) :
    Init (Init w a n reg).1 a n (Init w a n reg).2.1 =
      ((Init w a n reg).1, (Init w a n reg).2.1, none) := by
  rcases hrv : registerViews reg
      (initViews { w with appID := a, enabled := true, nspace := n }) with ⟨reg1, err⟩
  have hInit : Init w a n reg =
      ({ w with appID := a, enabled := true, nspace := n }, reg1, err) := by
    simp only [Init, hrv]
  rw [hInit] at h ⊢
  simp only at h
  subst h
  have hidem := registerViews_of_found
    (initViews { w with appID := a, enabled := true, nspace := n }) reg1
    (registerViews_ok_find _ reg reg1 hrv)
  simp [Init, hidem]

/-- Witness for C8: re-running `Init("a1", "ns1")` after the successful
first run on a fresh instance is an idempotent success. -/
theorem Init_reinit_idempotent_witness :
    (Init newWorkflowMetrics "a1" "ns1" []).2.2 = none ∧
    Init (Init newWorkflowMetrics "a1" "ns1" []).1 "a1" "ns1"
        (Init newWorkflowMetrics "a1" "ns1" []).2.1 =
      ((Init newWorkflowMetrics "a1" "ns1" []).1,
       (Init newWorkflowMetrics "a1" "ns1" []).2.1, none) :=
  ⟨by decide, Init_reinit_idempotent newWorkflowMetrics "a1" "ns1" [] (by decide)⟩

end Diag
